import Mathlib

set_option linter.unusedVariables false

/-!
Shallow embedding of the BCC subprotocol core of `trinity`:
`trinity/protocol/bcc/servers.py` (request server, receive server, attestation
pool, orphan-block pool) and `trinity/protocol/bcc/proto.py` (protocol driver).

Conventions of the embedding:
* `Hash32` / `SigningRoot` values are modelled as `Nat`.
* SSZ encoding is out of scope and round-trips, so message payloads carry the
  already-decoded values.
* The chain DB, `import_block`, `attestation_exists` and consensus attestation
  validation are external collaborators (they live under `eth2/`, outside the
  source under study); they are modelled as oracles on a `BeaconChain` record,
  following the contracts the spec gives for them.
* Handlers return `Except Fault …`: `Except.error` models an exception
  escaping the handler, and the returned effect list models the calls handed
  to the transport (`send_get_blocks`, `send_new_block`, …) in order.
-/

/-- An attestation, identified by its SSZ hash-tree-root (modelled as `Nat`).
Python value equality of attestations coincides with equality of the root. -/
structure Attestation where
  hash_tree_root : Nat
  deriving DecidableEq, Repr

/-- A Python value passed to `AttestationPool.remove`: either a single
`Attestation`, or a tuple of attestations — as actually happens at the call
sites `attestation_pool.remove(block.body.attestations)`.  Python equality
between a tuple and an `Attestation` is `False`; the derived equality on this
sum mirrors that (distinct constructors are never equal). -/
inductive PoolArg where
  | att (a : Attestation)
  | tup (l : List Attestation)
  deriving DecidableEq, Repr

/-- Python membership test `attestation in self._pool` as used by
`AttestationPool.remove`: true iff some pool element equals the argument under
Python equality. -/
def AttestationPool.memArg (pool : List Attestation) (x : PoolArg) : Bool :=
  pool.any (fun a => decide (PoolArg.att a = x))

/-- Embeds `AttestationPool.remove`:
`if attestation in self._pool: self._pool.remove(attestation)`.
Total — it never raises, whatever the argument is. -/
def AttestationPool.remove (pool : List Attestation) (x : PoolArg) : List Attestation :=
  if AttestationPool.memArg pool x then
    pool.filter (fun a => decide (PoolArg.att a ≠ x))
  else
    pool

/-- Embeds `AttestationPool.__contains__` on a raw root (derived from
`AttestationPool.get`, which scans the pool for a matching hash-tree-root). -/
def AttestationPool.containsRoot (pool : List Attestation) (root : Nat) : Bool :=
  pool.any (fun a => a.hash_tree_root == root)

/-- Embeds `AttestationPool.batch_add`: `self._pool = self._pool.union(set(attestations))`.
The pool (a Python set) is modelled as a list; union keeps existing members and
appends the new ones. -/
def AttestationPool.batchAdd (pool : List Attestation) (atts : List Attestation) :
    List Attestation :=
  atts.foldl (fun p a => if a ∈ p then p else p ++ [a]) pool

/-- A beacon-block body; only the carried attestations matter to the servers. -/
structure BlockBody where
  attestations : List Attestation
  deriving DecidableEq, Repr

/-- A beacon block: slot, parent signing-root, own signing-root, body. -/
structure Block where
  slot : Nat
  parent_root : Nat
  signing_root : Nat
  body : BlockBody
  deriving DecidableEq, Repr

/-- Embeds `OrphanBlockPool.__contains__` on a raw root (via `OrphanBlockPool.get`,
which scans for a matching signing-root). -/
def OrphanBlockPool.containsRoot (pool : List Block) (root : Nat) : Bool :=
  pool.any (fun b => b.signing_root == root)

/-- Embeds `OrphanBlockPool.__contains__` on a block: looked up by its signing-root. -/
def OrphanBlockPool.containsBlock (pool : List Block) (b : Block) : Bool :=
  OrphanBlockPool.containsRoot pool b.signing_root

/-- Embeds `OrphanBlockPool.add`: `if block in self._pool: return; self._pool.add(block)`. -/
def OrphanBlockPool.add (pool : List Block) (b : Block) : List Block :=
  if b ∈ pool then pool else b :: pool

/-- Embeds `OrphanBlockPool.pop_children`: returns the members whose `parent_root`
equals the argument, and the pool with those members removed. -/
def OrphanBlockPool.popChildren (pool : List Block) (root : Nat) :
    List Block × List Block :=
  (pool.filter (fun b => b.parent_root == root),
   pool.filter (fun b => !(b.parent_root == root)))

/-- Lookup in `map_request_id_block_root` (a Python dict, modelled as an
association list where the head entry for a key wins). -/
def mapGet : List (Nat × Nat) → Nat → Option Nat
  | [], _ => none
  | kv :: rest, k => if kv.1 == k then some kv.2 else mapGet rest k

/-- Python dict assignment `m[k] = v` (overwrites any previous entry). -/
def mapInsert (m : List (Nat × Nat)) (k v : Nat) : List (Nat × Nat) :=
  (k, v) :: m.filter (fun kv => !(kv.1 == k))

/-- Python `del m[k]`. -/
def mapDel (m : List (Nat × Nat)) (k : Nat) : List (Nat × Nat) :=
  m.filter (fun kv => !(kv.1 == k))

/-- Outcome of `chain.import_block(block)` as seen by the servers. -/
inductive ImportResult where
  | ok
  | validationError
  | fatal
  deriving DecidableEq, Repr

/-- Modelled from the spec: the chain interface the servers consume
(`get_block_by_root`, `import_block`, `attestation_exists`,
`validate_attestation`), which lives under `eth2/` outside the sources under
study.  `dbRoots` holds the signing-roots present in the chain DB
(`get_block_by_root` succeeds exactly on those, else `BlockNotFound`);
`importOutcome` gives the result `import_block` produces for a block — on
success the block's root enters the DB; `attExistsOutcome` is
`attestation_exists`, which returns a `Bool` or raises `AttestationNotFound`
(modelled as `Except.error ()`); `validOutcome` is whether
`validate_attestation` passes on the fast-forwarded state. -/
structure BeaconChain where
  dbRoots : List Nat
  importOutcome : Block → ImportResult
  attExistsOutcome : Nat → Except Unit Bool
  validOutcome : Attestation → Bool

/-- Effect of a successful `chain.import_block`: the block is now in the DB. -/
def BeaconChain.addBlock (c : BeaconChain) (b : Block) : BeaconChain :=
  { c with dbRoots := b.signing_root :: c.dbRoots }

/-- Embeds `_is_block_root_in_db`: `chain.get_block_by_root` succeeds, i.e. does not
raise `BlockNotFound`. -/
def isBlockRootInDb (c : BeaconChain) (root : Nat) : Bool :=
  c.dbRoots.contains root

/-- A connected peer: identified by its remote node identity; the operational
flag is owned by the peer layer. -/
structure Peer where
  remote : Nat
  is_operational : Bool
  deriving DecidableEq, Repr

/-- An outbound send handed to the transport by the receive server. -/
inductive Effect where
  | sendGetBlocks (peerRemote : Nat) (blockRoot : Nat) (maxBlocks : Nat) (requestId : Nat)
  | sendNewBlock (peerRemote : Nat) (block : Block)
  | sendAttestations (peerRemote : Nat) (atts : List Attestation)
  deriving DecidableEq, Repr

/-- An exception escaping a receive-server handler. -/
inductive Fault where
  | duplicateBlock
  | unknownRequestId
  | wrongReplyCardinality
  | blockRootMismatch
  | fatalImport
  deriving DecidableEq, Repr

/-- The state of `BCCReceiveServer`: the chain handle, the connected peer pool,
and the three pieces of owned state (`attestation_pool`,
`map_request_id_block_root`, `orphan_block_pool`), plus the request-id
generator state (see `genRequestId`). -/
structure ReceiveServer where
  chain : BeaconChain
  peers : List Peer
  attestation_pool : List Attestation
  map_request_id_block_root : List (Nat × Nat)
  orphan_block_pool : List Block
  nextRequestId : Nat

/-- Modelled from the spec: `gen_request_id` (from `trinity/_utils/les.py`,
outside the sources under study) yields a fresh request id for each outbound
request; modelled as a counter threaded through the server state. -/
def genRequestId (nextId : Nat) : Nat × Nat := (nextId, nextId + 1)

/-- The peer loop of `_request_block_from_peers`: for every connected peer,
generate a request id, record it in the pending-request table mapped to the
requested root, and send `GetBeaconBlocks(blockRoot, max_blocks=1)`. -/
def requestLoop (root : Nat) :
    List (Nat × Nat) → Nat → List Peer → List (Nat × Nat) × Nat × List Effect
  | m, nextId, [] => (m, nextId, [])
  | m, nextId, p :: ps =>
    let rid := (genRequestId nextId).1
    let r := requestLoop root (mapInsert m rid root) (genRequestId nextId).2 ps
    (r.1, r.2.1, Effect.sendGetBlocks p.remote root 1 rid :: r.2.2)

/-- Embeds `_request_block_from_peers`. -/
def requestBlockFromPeers (s : ReceiveServer) (blockRoot : Nat) :
    ReceiveServer × List Effect :=
  let r := requestLoop blockRoot s.map_request_id_block_root s.nextRequestId s.peers
  ({ s with map_request_id_block_root := r.1, nextRequestId := r.2.1 }, r.2.2)

/-- The inner `for block in children` loop of `_try_import_orphan_blocks`:
attempt `chain.import_block(block)` on each child in order; on success append
the child's signing-root to the worklist additions; on `ValidationError` run
`self.attestation_pool.remove(block.body.attestations)` — note the argument is
the whole tuple; any other exception propagates. -/
def importChildren :
    BeaconChain → List Attestation → List Block →
    Except Fault (BeaconChain × List Attestation × List Nat)
  | chain, attPool, [] => Except.ok (chain, attPool, [])
  | chain, attPool, b :: bs =>
    match chain.importOutcome b with
    | ImportResult.ok =>
      match importChildren (chain.addBlock b) attPool bs with
      | Except.ok (c2, p2, roots) => Except.ok (c2, p2, b.signing_root :: roots)
      | Except.error e => Except.error e
    | ImportResult.validationError =>
      importChildren chain
        (AttestationPool.remove attPool (PoolArg.tup b.body.attestations)) bs
    | ImportResult.fatal => Except.error Fault.fatalImport

/-- The `while imported_roots` loop of `_try_import_orphan_blocks`.  The Python
worklist pops from its end (`list.pop()`); the stack below keeps that end at
its head, so `append` is `cons` and newly appended roots are popped first.
`fuel` bounds the number of iterations; `tryImportOrphanBlocks` supplies fuel
that is provably sufficient (`drainLoop_fuel_irrelevant`), so the bound never
cuts a run short. -/
def drainLoop :
    Nat → BeaconChain → List Block → List Attestation → List Nat →
    Except Fault (BeaconChain × List Block × List Attestation)
  | 0, chain, orphans, attPool, _ => Except.ok (chain, orphans, attPool)
  | fuel + 1, chain, orphans, attPool, stack =>
    match stack with
    | [] => Except.ok (chain, orphans, attPool)
    | current :: rest =>
      if isBlockRootInDb chain current then
        let pc := OrphanBlockPool.popChildren orphans current
        match importChildren chain attPool pc.1 with
        | Except.error e => Except.error e
        | Except.ok (c2, p2, newRoots) =>
          drainLoop fuel c2 pc.2 p2 (newRoots.reverse ++ rest)
      else
        drainLoop fuel chain orphans attPool rest

/-- Embeds `_try_import_orphan_blocks`. -/
def tryImportOrphanBlocks (chain : BeaconChain) (orphans : List Block)
    (attPool : List Attestation) (parentRoot : Nat) :
    Except Fault (BeaconChain × List Block × List Attestation) :=
  drainLoop (1 + 2 * orphans.length) chain orphans attPool [parentRoot]

/-- Embeds `_process_received_block`: returns whether the block should be further
broadcast, together with the updated server state and the outbound sends. -/
def processReceivedBlock (s : ReceiveServer) (block : Block) :
    Except Fault (Bool × ReceiveServer × List Effect) :=
  if !(isBlockRootInDb s.chain block.parent_root) then
    if !(OrphanBlockPool.containsBlock s.orphan_block_pool block) then
      let s1 := { s with orphan_block_pool := OrphanBlockPool.add s.orphan_block_pool block }
      let r := requestBlockFromPeers s1 block.parent_root
      Except.ok (false, r.1, r.2)
    else
      Except.ok (false, s, [])
  else
    match s.chain.importOutcome block with
    | ImportResult.validationError => Except.ok (false, s, [])
    | ImportResult.fatal => Except.error Fault.fatalImport
    | ImportResult.ok =>
      match tryImportOrphanBlocks (s.chain.addBlock block) s.orphan_block_pool
          s.attestation_pool block.signing_root with
      | Except.error e => Except.error e
      | Except.ok (c2, orphans2, attPool2) =>
        let attPool3 := AttestationPool.remove attPool2 (PoolArg.tup block.body.attestations)
        Except.ok (true,
          { s with chain := c2, orphan_block_pool := orphans2, attestation_pool := attPool3 },
          [])

/-- Embeds `_is_attestation_new`: the pool is consulted first (its membership test
swallows `AttestationNotFound` internally); only `chain.attestation_exists`
can raise, and that is caught and treated as "new". -/
def isAttestationNew (s : ReceiveServer) (a : Attestation) : Bool :=
  if AttestationPool.containsRoot s.attestation_pool a.hash_tree_root then
    true
  else
    match s.chain.attExistsOutcome a.hash_tree_root with
    | Except.ok b => !b
    | Except.error _ => true

/-- Embeds `_validate_attestations`: keep the attestations for which
`validate_attestation` (consensus check, modelled by the chain's
`validOutcome` oracle) does not raise `ValidationError`. -/
def validateAttestations (c : BeaconChain) (atts : List Attestation) :
    List Attestation :=
  atts.filter c.validOutcome

/-- The sender-skipping iteration shared by `_broadcast_attestations` and
`_broadcast_block`: all connected peers except the one whose remote identity
equals the sender's. -/
def skipSender (peers : List Peer) (fromPeer : Option Peer) : List Peer :=
  peers.filter (fun p =>
    match fromPeer with
    | none => true
    | some fp => !(p.remote == fp.remote))

/-- Embeds `_broadcast_attestations`. -/
def broadcastAttestations (peers : List Peer) (atts : List Attestation)
    (fromPeer : Option Peer) : List Effect :=
  (skipSender peers fromPeer).map (fun p => Effect.sendAttestations p.remote atts)

/-- Embeds `_broadcast_block`. -/
def broadcastBlock (peers : List Peer) (b : Block) (fromPeer : Option Peer) :
    List Effect :=
  (skipSender peers fromPeer).map (fun p => Effect.sendNewBlock p.remote b)

/-- Embeds `_handle_attestations`. -/
def handleAttestations (s : ReceiveServer) (peer : Peer) (atts : List Attestation) :
    ReceiveServer × List Effect :=
  if !peer.is_operational then (s, [])
  else
    let valid := validateAttestations s.chain atts
    if valid.length == 0 then (s, [])
    else
      let validNew := valid.filter (isAttestationNew s)
      if validNew.length == 0 then (s, [])
      else
        ({ s with attestation_pool := AttestationPool.batchAdd s.attestation_pool validNew },
         broadcastAttestations s.peers validNew (some peer))

/-- Embeds `_is_block_root_seen`: in the orphan pool, or else in the chain DB. -/
def isBlockRootSeen (s : ReceiveServer) (root : Nat) : Bool :=
  if OrphanBlockPool.containsRoot s.orphan_block_pool root then true
  else isBlockRootInDb s.chain root

/-- Embeds `_is_block_seen`. -/
def isBlockSeen (s : ReceiveServer) (b : Block) : Bool :=
  isBlockRootSeen s b.signing_root

/-- Embeds `_handle_new_beacon_block`. -/
def handleNewBeaconBlock (s : ReceiveServer) (peer : Peer) (block : Block) :
    Except Fault (ReceiveServer × List Effect) :=
  if !peer.is_operational then Except.ok (s, [])
  else if isBlockSeen s block then Except.error Fault.duplicateBlock
  else
    match processReceivedBlock s block with
    | Except.error e => Except.error e
    | Except.ok (shouldBroadcast, s2, effs) =>
      if shouldBroadcast then
        Except.ok (s2, effs ++ broadcastBlock s2.peers block (some peer))
      else
        Except.ok (s2, effs)

/-- Embeds `_handle_beacon_blocks`: unknown request id, a reply without exactly one
block, and a signing-root differing from the requested one are protocol
faults; otherwise the block goes through the import pipeline and the
pending-request entry is deleted. -/
def handleBeaconBlocks (s : ReceiveServer) (peer : Peer) (requestId : Nat)
    (blocks : List Block) : Except Fault (ReceiveServer × List Effect) :=
  if !peer.is_operational then Except.ok (s, [])
  else
    match mapGet s.map_request_id_block_root requestId with
    | none => Except.error Fault.unknownRequestId
    | some root =>
      match blocks with
      | [block] =>
        if !(block.signing_root == root) then Except.error Fault.blockRootMismatch
        else
          match processReceivedBlock s block with
          | Except.error e => Except.error e
          | Except.ok (_, s2, effs) =>
            let m2 := mapDel s2.map_request_id_block_root requestId
            Except.ok ({ s2 with map_request_id_block_root := m2 }, effs)
      | _ => Except.error Fault.wrongReplyCardinality

/-- The `for slot in range(start, end)` walk of `_get_blocks`, with the
iteration count made explicit (`count = end - start`): fetch the canonical
block at each slot, include it only if it links to the previous one, stop at
the first mismatch, stop at the first `BlockNotFound` (`none`). -/
def getBlocksLoop (dbSlot : Nat → Option Block) :
    Block → Nat → Nat → List Block
  | _, _, 0 => []
  | parent, slot, count + 1 =>
    match dbSlot slot with
    | none => []
    | some block =>
      if block.parent_root == parent.signing_root then
        block :: getBlocksLoop dbSlot block (slot + 1) count
      else
        []

/-- Embeds `_get_blocks`: nothing for `max_blocks = 0`, else the start block followed
by the connected walk over slots `start_block.slot + 1 …
start_block.slot + max_blocks - 1`. -/
def getBlocks (dbSlot : Nat → Option Block) (startBlock : Block) (maxBlocks : Nat) :
    List Block :=
  if maxBlocks == 0 then []
  else startBlock :: getBlocksLoop dbSlot startBlock (startBlock.slot + 1) (maxBlocks - 1)

/-- The tagged union `block_slot_or_root` of a `GetBeaconBlocks` request. -/
inductive SlotOrRoot where
  | slot (s : Nat)
  | root (r : Nat)
  deriving DecidableEq, Repr

/-- The chain-DB lookups the request server consumes
(`coro_get_canonical_block_by_slot`, `coro_get_block_by_root`); `none` models
`BlockNotFound`. -/
structure RequestServerDB where
  canonicalBySlot : Nat → Option Block
  byRoot : Nat → Option Block

/-- The `try … except BlockNotFound` resolution of `start_block` in
`_handle_get_beacon_blocks`. -/
def resolveStartBlock (db : RequestServerDB) (q : SlotOrRoot) : Option Block :=
  match q with
  | SlotOrRoot.slot s => db.canonicalBySlot s
  | SlotOrRoot.root r => db.byRoot r

/-- Embeds `_handle_get_beacon_blocks`: returns the reply `(request_id, blocks)`
handed to `peer.sub_proto.send_blocks` — a reply is sent in every case. -/
def handleGetBeaconBlocks (db : RequestServerDB) (requestId : Nat) (maxBlocks : Nat)
    (q : SlotOrRoot) : Nat × List Block :=
  match resolveStartBlock db q with
  | some startBlock => (requestId, getBlocks db.canonicalBySlot startBlock maxBlocks)
  | none => (requestId, [])

/-- Embeds `BCCHandshakeParams`. -/
structure BCCHandshakeParams where
  protocol_version : Nat
  network_id : Nat
  genesis_root : Nat
  head_slot : Nat
  deriving DecidableEq, Repr

/-- The `Status` message payload built by `send_handshake`. -/
structure StatusMessage where
  protocol_version : Nat
  network_id : Nat
  genesis_root : Nat
  head_slot : Nat
  deriving DecidableEq, Repr

/-- Embeds `BCCProtocol.version`, the driver's compiled protocol version. -/
def BCCProtocolVersion : Nat := 0

/-- The `ValidationError` raised by `send_handshake` on a version mismatch. -/
inductive ProtoError where
  | versionMismatch
  deriving DecidableEq, Repr

/-- Embeds `BCCProtocol.send_handshake`: the returned list is what is handed to the
transport; on the version-mismatch error nothing reaches the transport. -/
def sendHandshake (p : BCCHandshakeParams) : Except ProtoError (List StatusMessage) :=
  if !(BCCProtocolVersion == p.protocol_version) then
    Except.error ProtoError.versionMismatch
  else
    Except.ok [{ protocol_version := p.protocol_version, network_id := p.network_id,
                 genesis_root := p.genesis_root, head_slot := p.head_slot }]

/-- Projection: the broadcast flag of a pipeline result. -/
def pipelineFlag : Except Fault (Bool × ReceiveServer × List Effect) → Option Bool
  | Except.ok r => some r.1
  | Except.error _ => none

/-- Projection: the attestation pool after a pipeline run. -/
def pipelinePool : Except Fault (Bool × ReceiveServer × List Effect) → List Attestation
  | Except.ok r => r.2.1.attestation_pool
  | Except.error _ => []

/-- Projection: the sends of a pipeline run. -/
def pipelineEffects : Except Fault (Bool × ReceiveServer × List Effect) → List Effect
  | Except.ok r => r.2.2
  | Except.error _ => []

/-- Projection: the pending-request table after a pipeline run. -/
def pipelineMap : Except Fault (Bool × ReceiveServer × List Effect) → List (Nat × Nat)
  | Except.ok r => r.2.1.map_request_id_block_root
  | Except.error _ => []

/-- Projection: the attestation pool after the children loop of drainage. -/
def childrenPool : Except Fault (BeaconChain × List Attestation × List Nat) → List Attestation
  | Except.ok r => r.2.1
  | Except.error _ => []

/-- Projection: the worklist additions of the children loop of drainage. -/
def childrenRoots : Except Fault (BeaconChain × List Attestation × List Nat) → List Nat
  | Except.ok r => r.2.2
  | Except.error _ => []

/-- Parent-linkage of a list of blocks relative to a preceding block: each
element's `parent_root` is the signing-root of its predecessor. -/
def linkedFrom : Block → List Block → Prop
  | _, [] => True
  | parent, b :: bs => b.parent_root = parent.signing_root ∧ linkedFrom b bs

/-! Concrete scenario values used by witnesses and counterexamples. -/

def attA1 : Attestation := ⟨1⟩

def attA2 : Attestation := ⟨2⟩

def attA3 : Attestation := ⟨3⟩

def peerP1 : Peer := ⟨1, true⟩

def peerP2 : Peer := ⟨2, true⟩

/-- A chain whose DB holds root 100 and which imports every block. -/
def chainC1 : BeaconChain :=
  { dbRoots := [100], importOutcome := fun _ => ImportResult.ok,
    attExistsOutcome := fun _ => Except.error (), validOutcome := fun _ => true }

def blkC1 : Block := { slot := 5, parent_root := 100, signing_root := 101, body := ⟨[attA1, attA3]⟩ }

def sC1 : ReceiveServer :=
  { chain := chainC1, peers := [], attestation_pool := [attA1, attA2, attA3],
    map_request_id_block_root := [], orphan_block_pool := [], nextRequestId := 0 }

/-- A chain whose DB holds root 200 and which imports every block. -/
def chainD : BeaconChain :=
  { dbRoots := [200], importOutcome := fun _ => ImportResult.ok,
    attExistsOutcome := fun _ => Except.error (), validOutcome := fun _ => true }

def childD : Block := { slot := 2, parent_root := 200, signing_root := 201, body := ⟨[attA1]⟩ }

/-- A chain that imports exactly the block with signing-root 301 and rejects
every other block with `ValidationError`. -/
def chainE : BeaconChain :=
  { dbRoots := [300],
    importOutcome := fun b => if b.signing_root == 301 then ImportResult.ok
      else ImportResult.validationError,
    attExistsOutcome := fun _ => Except.error (), validOutcome := fun _ => true }

def childE1 : Block := { slot := 2, parent_root := 300, signing_root := 301, body := ⟨[attA1]⟩ }

def childE2 : Block := { slot := 2, parent_root := 300, signing_root := 302, body := ⟨[attA1]⟩ }

/-- A chain with an empty DB that reports every attestation as absent and
every attestation as consensus-valid. -/
def chainC3 : BeaconChain :=
  { dbRoots := [], importOutcome := fun _ => ImportResult.ok,
    attExistsOutcome := fun _ => Except.ok false, validOutcome := fun _ => true }

def sC3 : ReceiveServer :=
  { chain := chainC3, peers := [peerP1, peerP2], attestation_pool := [attA1],
    map_request_id_block_root := [], orphan_block_pool := [], nextRequestId := 0 }

def blkW1 : Block := { slot := 10, parent_root := 9, signing_root := 10, body := ⟨[]⟩ }

def blkW2 : Block := { slot := 11, parent_root := 10, signing_root := 11, body := ⟨[]⟩ }

/-- A canonical block at slot 12 that does not link to the block at slot 11
(a reorg mid-walk). -/
def blkW3 : Block := { slot := 12, parent_root := 999, signing_root := 12, body := ⟨[]⟩ }

def dbW : Nat → Option Block := fun s =>
  if s == 10 then some blkW1 else if s == 11 then some blkW2
  else if s == 12 then some blkW3 else none

def blkG : Block := { slot := 1, parent_root := 50, signing_root := 51, body := ⟨[]⟩ }

/-- A server that already holds `blkG` in its orphan pool, with one connected
peer. -/
def sG : ReceiveServer :=
  { chain := chainC3, peers := [peerP1], attestation_pool := [],
    map_request_id_block_root := [], orphan_block_pool := [blkG], nextRequestId := 7 }

def blkH : Block := { slot := 1, parent_root := 60, signing_root := 61, body := ⟨[]⟩ }

def sH : ReceiveServer :=
  { chain := chainC3, peers := [peerP1, peerP2], attestation_pool := [],
    map_request_id_block_root := [], orphan_block_pool := [], nextRequestId := 10 }

/-- The state `_process_received_block` leaves behind in the orphan branch for
`sH` and `blkH`. -/
def s2H : ReceiveServer :=
  (requestBlockFromPeers
    { sH with orphan_block_pool := OrphanBlockPool.add sH.orphan_block_pool blkH }
    blkH.parent_root).1

def chainI : BeaconChain :=
  { dbRoots := [70], importOutcome := fun _ => ImportResult.ok,
    attExistsOutcome := fun _ => Except.error (), validOutcome := fun _ => true }

def blkI : Block := { slot := 3, parent_root := 70, signing_root := 71, body := ⟨[]⟩ }

def sI : ReceiveServer :=
  { chain := chainI, peers := [peerP1, peerP2], attestation_pool := [],
    map_request_id_block_root := [], orphan_block_pool := [], nextRequestId := 0 }

def s2I : ReceiveServer := { sI with chain := { chainI with dbRoots := [71, 70] } }

def chainJ : BeaconChain :=
  { dbRoots := [79], importOutcome := fun _ => ImportResult.ok,
    attExistsOutcome := fun _ => Except.error (), validOutcome := fun _ => true }

def blkJ : Block := { slot := 4, parent_root := 79, signing_root := 80, body := ⟨[]⟩ }

def sJ : ReceiveServer :=
  { chain := chainJ, peers := [peerP1], attestation_pool := [],
    map_request_id_block_root := [(5, 80)], orphan_block_pool := [], nextRequestId := 0 }

def s2J : ReceiveServer :=
  { sJ with chain := { chainJ with dbRoots := [80, 79] }, map_request_id_block_root := [] }

/-- A request-server DB with no blocks at all. -/
def dbK : RequestServerDB := ⟨fun _ => none, fun _ => none⟩

/-- The `Status` payload `send_handshake` builds from its parameters. -/
def statusOf (p : BCCHandshakeParams) : StatusMessage :=
  { protocol_version := p.protocol_version, network_id := p.network_id,
    genesis_root := p.genesis_root, head_slot := p.head_slot }

/-! Helper lemmas. -/

/-- A tuple is never equal to any pool member, so the membership test of
`AttestationPool.remove` is false on every tuple argument. -/
theorem memArg_tup (pool : List Attestation) (l : List Attestation) :
    AttestationPool.memArg pool (PoolArg.tup l) = false := by
  induction pool with
  | nil => rfl
  | cons a ps ih =>
    simp only [AttestationPool.memArg, List.any_cons] at ih ⊢
    simp [ih]

/-- The function `AttestationPool.remove` is a no-op on every tuple argument. -/
theorem remove_tup (pool : List Attestation) (l : List Attestation) :
    AttestationPool.remove pool (PoolArg.tup l) = pool := by
  simp [AttestationPool.remove, memArg_tup]

/-- A pool member is found by the root-based membership test. -/
theorem containsBlock_of_mem {pool : List Block} {b : Block} (h : b ∈ pool) :
    OrphanBlockPool.containsBlock pool b = true := by
  simp only [OrphanBlockPool.containsBlock, OrphanBlockPool.containsRoot, List.any_eq_true]
  exact ⟨b, h, by simp⟩

theorem mapGet_filter_ne (m : List (Nat × Nat)) (k k2 : Nat) (h : k2 ≠ k) :
    mapGet (m.filter (fun kv => !(kv.1 == k))) k2 = mapGet m k2 := by
  induction m with
  | nil => rfl
  | cons kv rest ih =>
    by_cases hk : kv.1 = k
    · have h2 : (k == k2) = false := by simp [Ne.symm h]
      simp [List.filter, hk, mapGet, h2, ih]
    · have h3 : (!(kv.1 == k)) = true := by simp [hk]
      simp [List.filter, h3, mapGet, ih]

theorem mapGet_insert (m : List (Nat × Nat)) (k v k2 : Nat) :
    mapGet (mapInsert m k v) k2 = if k2 = k then some v else mapGet m k2 := by
  by_cases h : k2 = k
  · simp [mapInsert, mapGet, h]
  · simp only [mapInsert, mapGet]
    have h2 : (k == k2) = false := by simp [Ne.symm h]
    simp [h2, h, mapGet_filter_ne m k k2 h]

theorem mapGet_mapDel (m : List (Nat × Nat)) (k : Nat) :
    mapGet (mapDel m k) k = none := by
  induction m with
  | nil => rfl
  | cons kv rest ih =>
    simp only [mapDel, List.filter] at ih ⊢
    by_cases hk : kv.1 = k
    · have h3 : (!(kv.1 == k)) = false := by simp [hk]
      simp [h3, ih]
    · have h3 : (!(kv.1 == k)) = true := by simp [hk]
      have h2 : (kv.1 == k) = false := by simp [hk]
      simp [h3, mapGet, h2, ih]

/-- The sends of the peer loop of `_request_block_from_peers`: one
`GetBeaconBlocks(root, max=1)` per connected peer, with consecutive request
ids starting at the current generator state. -/
theorem requestLoop_effects (root : Nat) :
    ∀ ps m n, (requestLoop root m n ps).2.2 =
      (List.enumFrom n ps).map (fun ip => Effect.sendGetBlocks ip.2.remote root 1 ip.1) := by
  intro ps
  induction ps with
  | nil => intro m n; rfl
  | cons p tail ih =>
    intro m n
    simp only [requestLoop, genRequestId, List.enumFrom, List.map]
    simp [ih]

/-- The peer loop leaves table entries with keys below the generator state
untouched. -/
theorem requestLoop_map_lt (root : Nat) :
    ∀ ps m n k, k < n → mapGet (requestLoop root m n ps).1 k = mapGet m k := by
  intro ps
  induction ps with
  | nil => intro m n k hk; rfl
  | cons p tail ih =>
    intro m n k hk
    simp only [requestLoop, genRequestId]
    rw [ih (mapInsert m n root) (n + 1) k (Nat.lt_succ_of_lt hk)]
    rw [mapGet_insert]
    simp [Nat.ne_of_lt hk]

/-- After the peer loop, every generated id is recorded in the table, mapped
to the requested root. -/
theorem requestLoop_map_hit (root : Nat) :
    ∀ ps m n i, i < ps.length →
      mapGet (requestLoop root m n ps).1 (n + i) = some root := by
  intro ps
  induction ps with
  | nil => intro m n i hi; exact absurd hi (Nat.not_lt_zero i)
  | cons p tail ih =>
    intro m n i hi
    cases i with
    | zero =>
      simp only [requestLoop, genRequestId, Nat.add_zero]
      rw [requestLoop_map_lt root tail (mapInsert m n root) (n + 1) n (Nat.lt_succ_self n)]
      rw [mapGet_insert]
      simp
    | succ j =>
      have hj : j < tail.length := Nat.lt_of_succ_lt_succ hi
      have h2 := ih (mapInsert m n root) (n + 1) j hj
      simp only [requestLoop, genRequestId]
      have harith : n + (j + 1) = (n + 1) + j := by omega
      rw [harith]
      exact h2

/-- The children loop of orphan drainage leaves the attestation pool unchanged
(both its removal call sites pass tuples), and records exactly the
successfully imported children's signing-roots, in order. -/
theorem importChildren_pool_and_roots :
    ∀ children chain attPool c2 p2 roots,
      importChildren chain attPool children = Except.ok (c2, p2, roots) →
      p2 = attPool ∧
      roots = (children.filter
          (fun b => chain.importOutcome b == ImportResult.ok)).map
        (fun b => b.signing_root) := by
  intro children
  induction children with
  | nil =>
    intro chain attPool c2 p2 roots h
    simp only [importChildren] at h
    injection h with h2
    injection h2 with h3 h4
    injection h4 with h5 h6
    exact ⟨h5.symm, h6.symm⟩
  | cons b bs ih =>
    intro chain attPool c2 p2 roots h
    simp only [importChildren] at h
    cases ho : chain.importOutcome b with
    | ok =>
      rw [ho] at h
      cases hrec : importChildren (chain.addBlock b) attPool bs with
      | error e => rw [hrec] at h; cases h
      | ok r =>
        obtain ⟨c3, p3, rs3⟩ := r
        rw [hrec] at h
        injection h with h2
        injection h2 with h3 h4
        injection h4 with h5 h6
        obtain ⟨hp, hr⟩ := ih (chain.addBlock b) attPool c3 p3 rs3 hrec
        subst h5 h6
        refine ⟨hp, ?_⟩
        have hpred : (chain.importOutcome b == ImportResult.ok) = true := by simp [ho]
        simp only [List.filter, hpred, List.map]
        rw [hr]
        rfl
    | validationError =>
      rw [ho] at h
      rw [remove_tup] at h
      obtain ⟨hp, hr⟩ := ih chain attPool c2 p2 roots h
      have hpred : (chain.importOutcome b == ImportResult.ok) = false := by simp [ho]
      simp only [List.filter, hpred]
      exact ⟨hp, hr⟩
    | fatal => rw [ho] at h; cases h

/-- Every walk produced by the slot loop of `_get_blocks` is parent-linked to
the block it starts from. -/
theorem getBlocksLoop_linked (dbSlot : Nat → Option Block) :
    ∀ count parent slot, linkedFrom parent (getBlocksLoop dbSlot parent slot count) := by
  intro count
  induction count with
  | zero => intro parent slot; trivial
  | succ n ih =>
    intro parent slot
    simp only [getBlocksLoop]
    cases h : dbSlot slot with
    | none => trivial
    | some b =>
      by_cases hp : (b.parent_root == parent.signing_root) = true
      · simp only [hp, if_true, linkedFrom]
        exact ⟨by simpa using hp, ih b (slot + 1)⟩
      · simp only [Bool.not_eq_true] at hp
        simp only [hp, if_false, linkedFrom]

/-- Consecutive elements of a parent-linked list are parent-linked. -/
theorem linkedFrom_get? :
    ∀ (l : List Block) (parent : Block), linkedFrom parent l →
      ∀ i a b, l.get? i = some a → l.get? (i + 1) = some b →
        b.parent_root = a.signing_root := by
  intro l
  induction l with
  | nil =>
    intro parent h i a b ha hb
    simp [List.get?] at ha
  | cons c cs ih =>
    intro parent h i a b ha hb
    obtain ⟨hc, hcs⟩ := h
    cases i with
    | zero =>
      simp only [List.get?] at ha hb
      injection ha with ha2
      subst ha2
      cases cs with
      | nil => simp [List.get?] at hb
      | cons d ds =>
        obtain ⟨hd, _⟩ := hcs
        simp only [List.get?] at hb
        injection hb with hb2
        subst hb2
        exact hd
    | succ j =>
      exact ih c hcs j a b (by simpa using ha) (by simpa using hb)

/-- Consecutive elements of `parent :: walk` are parent-linked when the walk
is linked from `parent`. -/
theorem linkedFrom_cons_get? (parent : Block) (l : List Block)
    (h : linkedFrom parent l) :
    ∀ i a b, (parent :: l).get? i = some a → (parent :: l).get? (i + 1) = some b →
      b.parent_root = a.signing_root := by
  intro i a b ha hb
  cases i with
  | zero =>
    simp only [List.get?] at ha hb
    injection ha with ha2
    subst ha2
    cases l with
    | nil => simp [List.get?] at hb
    | cons d ds =>
      obtain ⟨hd, _⟩ := h
      simp only [List.get?] at hb
      injection hb with hb2
      subst hb2
      exact hd
  | succ j =>
    exact linkedFrom_get? l parent h j a b (by simpa using ha) (by simpa using hb)

/-- Every effect emitted by `_process_received_block` is a
`GetBeaconBlocks(parent_root, max=1)` request; in particular the pipeline never
broadcasts blocks or attestations itself. -/
theorem processReceivedBlock_effects_shape (s : ReceiveServer) (block : Block)
    (f : Bool) (s2 : ReceiveServer) (effs : List Effect)
    (h : processReceivedBlock s block = Except.ok (f, s2, effs)) :
    ∀ e ∈ effs, ∃ pr rid, e = Effect.sendGetBlocks pr block.parent_root 1 rid := by
  cases hdb : isBlockRootInDb s.chain block.parent_root with
  | false =>
    cases horp : OrphanBlockPool.containsBlock s.orphan_block_pool block with
    | false =>
      simp only [processReceivedBlock, hdb, horp, Bool.not_false, if_true] at h
      injection h with h2
      injection h2 with h3 h4
      injection h4 with h5 h6
      subst h6
      intro e he
      rw [requestBlockFromPeers] at he
      simp only at he
      rw [requestLoop_effects] at he
      simp only [List.mem_map] at he
      obtain ⟨ip, _, hip⟩ := he
      exact ⟨ip.2.remote, ip.1, hip.symm⟩
    | true =>
      simp only [processReceivedBlock, hdb, horp, Bool.not_false, Bool.not_true,
        if_true, if_false] at h
      injection h with h2
      injection h2 with h3 h4
      injection h4 with h5 h6
      subst h6
      intro e he
      simp at he
  | true =>
    simp only [processReceivedBlock, hdb, Bool.not_true, if_false] at h
    cases ho : s.chain.importOutcome block with
    | ok =>
      rw [ho] at h
      cases hd : tryImportOrphanBlocks (s.chain.addBlock block) s.orphan_block_pool
          s.attestation_pool block.signing_root with
      | error e => rw [hd] at h; cases h
      | ok r =>
        obtain ⟨c2, orphans2, attPool2⟩ := r
        rw [hd] at h
        injection h with h2
        injection h2 with h3 h4
        injection h4 with h5 h6
        subst h6
        intro e he
        simp at he
    | validationError =>
      rw [ho] at h
      injection h with h2
      injection h2 with h3 h4
      injection h4 with h5 h6
      subst h6
      intro e he
      simp at he
    | fatal => rw [ho] at h; cases h

/-- Membership in a block broadcast: exactly the sends to connected peers whose
remote identity differs from the sender's. -/
theorem mem_broadcastBlock (peers : List Peer) (b : Block) (fp : Peer) (e : Effect) :
    e ∈ broadcastBlock peers b (some fp) ↔
      ∃ p, p ∈ peers ∧ p.remote ≠ fp.remote ∧ e = Effect.sendNewBlock p.remote b := by
  simp only [broadcastBlock, skipSender, List.mem_map, List.mem_filter]
  constructor
  · rintro ⟨p, ⟨hmem, hne⟩, he⟩
    refine ⟨p, hmem, ?_, he.symm⟩
    simpa using hne
  · rintro ⟨p, hmem, hne, he⟩
    exact ⟨p, ⟨hmem, by simpa using hne⟩, he.symm⟩

/-! Claim theorems. -/

/-- C1: the claim says that after a successful import the pool loses every
attestation carried in `block.body.attestations` (here: pool `{a1,a2,a3}`,
body `{a1,a3}`, expected pool `{a2}`).  The code instead hands the whole tuple
to `AttestationPool.remove`, which is a no-op, so the import pipeline reports
success while the attestation pool still holds `{a1, a2, a3}`. -/
theorem C1_import_leaves_attestation_pool_unchanged :
    pipelineFlag (processReceivedBlock sC1 blkC1) = some true
    ∧ blkC1.body.attestations = [attA1, attA3]
    ∧ sC1.attestation_pool = [attA1, attA2, attA3]
    ∧ pipelinePool (processReceivedBlock sC1 blkC1) = [attA1, attA2, attA3] := by
  refine ⟨rfl, rfl, rfl, rfl⟩

/-- C2 counterexample: a child whose import succeeds and whose body carries an
attestation that is in the pool — the claim says the attestation is removed,
but the children loop of orphan drainage performs no removal at all on the
success path, so the pool still holds it. -/
theorem C2_success_path_counterexample :
    chainD.importOutcome childD = ImportResult.ok
    ∧ attA1 ∈ childD.body.attestations
    ∧ childrenPool (importChildren chainD [attA1] [childD]) = [attA1]
    ∧ childrenRoots (importChildren chainD [attA1] [childD]) = [201] := by
  refine ⟨rfl, by decide, rfl, rfl⟩

/-- C2 (amended): during orphan drainage, for every child popped from the
orphan pool, a successful `chain.import_block` enqueues the child's
signing-root but performs no attestation removal, and a `ValidationError`
triggers `attestation_pool.remove` on the whole tuple of the failed child's
body attestations, which is a no-op; hence the attestation pool after the
children loop equals the pool before it, and the enqueued roots are exactly
the successfully imported children's signing-roots in order. -/
theorem C2_drainage_pool_unchanged (chain : BeaconChain) (attPool : List Attestation)
    (children : List Block) (c2 : BeaconChain) (p2 : List Attestation) (roots : List Nat)
    (h : importChildren chain attPool children = Except.ok (c2, p2, roots)) :
    p2 = attPool ∧
    roots = (children.filter
        (fun b => chain.importOutcome b == ImportResult.ok)).map
      (fun b => b.signing_root) :=
  importChildren_pool_and_roots children chain attPool c2 p2 roots h

theorem C2_drainage_pool_unchanged_witness :
    ([attA1] : List Attestation) = [attA1] ∧
    ([301] : List Nat) = (([childE1, childE2].filter
        (fun b => chainE.importOutcome b == ImportResult.ok)).map
      (fun b => b.signing_root)) :=
  C2_drainage_pool_unchanged chainE [attA1] [childE1, childE2]
    (chainE.addBlock childE1) [attA1] [301] (by rfl)

/-- C3: the claim says an attestation whose hash-tree-root is already in the
attestation pool is never kept.  In the code `_is_attestation_new` returns
`True` for a pool member, so the handler keeps it: here the pool already holds
`a1`, yet a received `a1` is classified as new, re-added and re-broadcast to
the other peer. -/
theorem C3_pool_member_attestation_kept :
    AttestationPool.containsRoot sC3.attestation_pool attA1.hash_tree_root = true
    ∧ isAttestationNew sC3 attA1 = true
    ∧ (handleAttestations sC3 peerP1 [attA1]).2 = [Effect.sendAttestations 2 [attA1]] := by
  refine ⟨rfl, rfl, rfl⟩

/-- C8: when the start block of a `GetBeaconBlocks` request cannot be resolved
(`BlockNotFound` from either DB lookup), the request server still sends a
reply, carrying the same request id and an empty block list. -/
theorem C8_empty_start_reply (db : RequestServerDB) (requestId maxBlocks : Nat)
    (q : SlotOrRoot) (h : resolveStartBlock db q = none) :
    handleGetBeaconBlocks db requestId maxBlocks q = (requestId, [])
    ∧ (handleGetBeaconBlocks db requestId maxBlocks q).1 = requestId := by
  constructor
  · simp [handleGetBeaconBlocks, h]
  · simp [handleGetBeaconBlocks, h]

theorem C8_empty_start_reply_witness :
    handleGetBeaconBlocks dbK 42 10 (SlotOrRoot.slot 999) = (42, [])
    ∧ (handleGetBeaconBlocks dbK 42 10 (SlotOrRoot.slot 999)).1 = 42 :=
  C8_empty_start_reply dbK 42 10 (SlotOrRoot.slot 999) (by rfl)

/-- C9: `send_handshake` raises the version-mismatch `ValidationError` and
hands nothing to the transport when the caller-supplied protocol version
differs from the driver's compiled version, and otherwise encodes a `Status`
message with exactly the given parameters and hands it to the transport. -/
theorem C9_send_handshake_version_gate (p : BCCHandshakeParams) :
    (p.protocol_version ≠ BCCProtocolVersion →
      sendHandshake p = Except.error ProtoError.versionMismatch)
    ∧ (p.protocol_version = BCCProtocolVersion →
      sendHandshake p = Except.ok [statusOf p]) := by
  constructor
  · intro h
    have h2 : (BCCProtocolVersion == p.protocol_version) = false := by
      simp [Ne.symm h]
    simp [sendHandshake, h2]
  · intro h
    have h2 : (BCCProtocolVersion == p.protocol_version) = true := by simp [h]
    simp [sendHandshake, statusOf, h2]

theorem C9_send_handshake_version_gate_witness :
    sendHandshake ⟨1, 2, 3, 4⟩ = Except.error ProtoError.versionMismatch :=
  (C9_send_handshake_version_gate ⟨1, 2, 3, 4⟩).1 (by decide)

/-- C10: `AttestationPool.remove` with an argument that is not a member of the
pool — in particular with any tuple (or other collection) of attestations —
returns normally and leaves the pool unchanged; the pool can change only when
the argument itself is a pool member under Python equality. -/
theorem C10_remove_nonmember_noop (pool : List Attestation) (x : PoolArg) :
    (AttestationPool.memArg pool x = false → AttestationPool.remove pool x = pool)
    ∧ (∀ l, AttestationPool.remove pool (PoolArg.tup l) = pool)
    ∧ (AttestationPool.remove pool x ≠ pool → AttestationPool.memArg pool x = true) := by
  refine ⟨?_, ?_, ?_⟩
  · intro h
    simp [AttestationPool.remove, h]
  · intro l
    exact remove_tup pool l
  · intro h
    cases hm : AttestationPool.memArg pool x with
    | true => rfl
    | false => exact absurd (by simp [AttestationPool.remove, hm]) h

theorem C10_remove_nonmember_noop_witness :
    AttestationPool.remove [attA1, attA2] (PoolArg.tup [attA1]) = [attA1, attA2]
    ∧ AttestationPool.remove [attA1, attA2] (PoolArg.att attA3) = [attA1, attA2] :=
  ⟨(C10_remove_nonmember_noop [attA1, attA2] (PoolArg.att attA3)).2.1 [attA1],
   (C10_remove_nonmember_noop [attA1, attA2] (PoolArg.att attA3)).1 (by decide)⟩

/-- C4: every reply the request server's block walk produces is parent-linked —
for each consecutive pair the later block's `parent_root` equals the earlier
block's signing-root; a fetched block is included only when it links to the
previous one (on a mismatch the walk stops, returning what was collected), and
the walk stops at the first `BlockNotFound` in the slot range. -/
theorem C4_served_ranges_connected (dbSlot : Nat → Option Block)
    (startBlock : Block) (maxBlocks : Nat) :
    (∀ i a b, (getBlocks dbSlot startBlock maxBlocks).get? i = some a →
      (getBlocks dbSlot startBlock maxBlocks).get? (i + 1) = some b →
      b.parent_root = a.signing_root)
    ∧ (∀ parent slot count, dbSlot slot = none →
        getBlocksLoop dbSlot parent slot (count + 1) = [])
    ∧ (∀ parent slot count block, dbSlot slot = some block →
        (block.parent_root == parent.signing_root) = false →
        getBlocksLoop dbSlot parent slot (count + 1) = []) := by
  refine ⟨?_, ?_, ?_⟩
  · intro i a b ha hb
    by_cases hmb : (maxBlocks == 0) = true
    · rw [getBlocks, if_pos hmb] at ha
      simp [List.get?] at ha
    · simp only [Bool.not_eq_true] at hmb
      rw [getBlocks, if_neg (by simp [hmb])] at ha hb
      exact linkedFrom_cons_get? startBlock _
        (getBlocksLoop_linked dbSlot (maxBlocks - 1) startBlock (startBlock.slot + 1))
        i a b ha hb
  · intro parent slot count h
    simp [getBlocksLoop, h]
  · intro parent slot count block h hp
    simp [getBlocksLoop, h, hp]

theorem C4_served_ranges_connected_witness :
    blkW2.parent_root = blkW1.signing_root
    ∧ getBlocksLoop dbW blkW2 12 3 = [] :=
  ⟨(C4_served_ranges_connected dbW blkW1 5).1 0 blkW1 blkW2 (by decide) (by decide),
   (C4_served_ranges_connected dbW blkW1 5).2.2 blkW2 12 2 blkW3 (by decide) (by decide)⟩

/-- C5 counterexample: the parent is unknown and one peer is connected, but the
received block is already in the orphan pool — the claim says a
`GetBeaconBlocks` request is still sent to every connected peer, yet the
pipeline sends nothing and records nothing, merely returning false. -/
theorem C5_counterexample_already_orphaned :
    isBlockRootInDb sG.chain blkG.parent_root = false
    ∧ sG.peers = [peerP1]
    ∧ OrphanBlockPool.containsBlock sG.orphan_block_pool blkG = true
    ∧ pipelineFlag (processReceivedBlock sG blkG) = some false
    ∧ pipelineEffects (processReceivedBlock sG blkG) = []
    ∧ pipelineMap (processReceivedBlock sG blkG) = [] := by
  refine ⟨rfl, rfl, rfl, rfl, rfl, rfl⟩

/-- C5 (amended): when the received block's `parent_root` is not in the chain
DB *and the block is not already in the orphan pool*, the pipeline adds the
block to the orphan pool, sends `GetBeaconBlocks(parent_root, max_blocks=1)`
to every connected peer — each send with a fresh request id recorded in the
pending-request table mapped to `parent_root` — and returns false; when the
block is already in the orphan pool it returns false without sending any
request or touching the table. -/
theorem C5_orphan_request_spec (s : ReceiveServer) (block : Block)
    (hdb : isBlockRootInDb s.chain block.parent_root = false) :
    (OrphanBlockPool.containsBlock s.orphan_block_pool block = false →
      processReceivedBlock s block = Except.ok (false,
        (requestBlockFromPeers
          { s with orphan_block_pool := OrphanBlockPool.add s.orphan_block_pool block }
          block.parent_root).1,
        (List.enumFrom s.nextRequestId s.peers).map
          (fun ip => Effect.sendGetBlocks ip.2.remote block.parent_root 1 ip.1))
      ∧ OrphanBlockPool.containsBlock
          (requestBlockFromPeers
            { s with orphan_block_pool := OrphanBlockPool.add s.orphan_block_pool block }
            block.parent_root).1.orphan_block_pool block = true
      ∧ (∀ i, i < s.peers.length →
          mapGet (requestBlockFromPeers
              { s with orphan_block_pool := OrphanBlockPool.add s.orphan_block_pool block }
              block.parent_root).1.map_request_id_block_root
            (s.nextRequestId + i) = some block.parent_root))
    ∧ (OrphanBlockPool.containsBlock s.orphan_block_pool block = true →
        processReceivedBlock s block = Except.ok (false, s, [])) := by
  constructor
  · intro hnew
    refine ⟨?_, ?_, ?_⟩
    · simp only [processReceivedBlock, hdb, hnew, Bool.not_false, if_true]
      rw [requestBlockFromPeers]
      simp only
      rw [requestLoop_effects]
    · have hmem : block ∉ s.orphan_block_pool := by
        intro hm
        rw [containsBlock_of_mem hm] at hnew
        cases hnew
      rw [requestBlockFromPeers]
      simp only [OrphanBlockPool.add, if_neg hmem]
      simp [OrphanBlockPool.containsBlock, OrphanBlockPool.containsRoot]
    · intro i hi
      rw [requestBlockFromPeers]
      simp only
      exact requestLoop_map_hit block.parent_root s.peers
        s.map_request_id_block_root s.nextRequestId i hi
  · intro hseen
    simp [processReceivedBlock, hdb, hseen]

theorem C5_orphan_request_spec_witness :
    processReceivedBlock sH blkH = Except.ok (false, s2H,
      (List.enumFrom sH.nextRequestId sH.peers).map
        (fun ip => Effect.sendGetBlocks ip.2.remote blkH.parent_root 1 ip.1))
    ∧ OrphanBlockPool.containsBlock s2H.orphan_block_pool blkH = true
    ∧ mapGet s2H.map_request_id_block_root (sH.nextRequestId + 0) = some blkH.parent_root
    ∧ mapGet s2H.map_request_id_block_root (sH.nextRequestId + 1) = some blkH.parent_root :=
  ⟨((C5_orphan_request_spec sH blkH (by rfl)).1 (by rfl)).1,
   ((C5_orphan_request_spec sH blkH (by rfl)).1 (by rfl)).2.1,
   ((C5_orphan_request_spec sH blkH (by rfl)).1 (by rfl)).2.2 0 (by decide),
   ((C5_orphan_request_spec sH blkH (by rfl)).1 (by rfl)).2.2 1 (by decide)⟩

/-- C6: for a `NewBeaconBlock` message from an operational peer, a block whose
signing-root is already seen (orphan pool or chain DB) is a protocol fault and
nothing is broadcast; otherwise, when the import pipeline reports success the
block is re-broadcast to every connected peer except the sender (compared by
remote identity), and when the pipeline returns false no block broadcast
occurs. -/
theorem C6_new_block_handler_spec (s : ReceiveServer) (peer : Peer) (block : Block)
    (hop : peer.is_operational = true) :
    (isBlockSeen s block = true →
      handleNewBeaconBlock s peer block = Except.error Fault.duplicateBlock)
    ∧ (∀ s2 effs, isBlockSeen s block = false →
        processReceivedBlock s block = Except.ok (true, s2, effs) →
        handleNewBeaconBlock s peer block
          = Except.ok (s2, effs ++ broadcastBlock s2.peers block (some peer))
        ∧ (∀ e, e ∈ broadcastBlock s2.peers block (some peer) ↔
            ∃ p, p ∈ s2.peers ∧ p.remote ≠ peer.remote
              ∧ e = Effect.sendNewBlock p.remote block))
    ∧ (∀ s2 effs, isBlockSeen s block = false →
        processReceivedBlock s block = Except.ok (false, s2, effs) →
        handleNewBeaconBlock s peer block = Except.ok (s2, effs)
        ∧ ∀ e, e ∈ effs → ∀ r b2, e ≠ Effect.sendNewBlock r b2) := by
  refine ⟨?_, ?_, ?_⟩
  · intro hseen
    simp [handleNewBeaconBlock, hop, hseen]
  · intro s2 effs hseen hp
    constructor
    · simp [handleNewBeaconBlock, hop, hseen, hp]
    · intro e
      exact mem_broadcastBlock s2.peers block peer e
  · intro s2 effs hseen hp
    constructor
    · simp [handleNewBeaconBlock, hop, hseen, hp]
    · intro e he r b2
      obtain ⟨pr, rid, hshape⟩ :=
        processReceivedBlock_effects_shape s block false s2 effs hp e he
      rw [hshape]
      intro hcontra
      cases hcontra

theorem C6_new_block_handler_spec_witness :
    handleNewBeaconBlock sI peerP1 blkI
      = Except.ok (s2I, [] ++ broadcastBlock s2I.peers blkI (some peerP1))
    ∧ Effect.sendNewBlock peerP2.remote blkI ∈ broadcastBlock s2I.peers blkI (some peerP1) :=
  ⟨((C6_new_block_handler_spec sI peerP1 blkI rfl).2.1 s2I [] (by rfl) (by rfl)).1,
   (((C6_new_block_handler_spec sI peerP1 blkI rfl).2.1 s2I [] (by rfl) (by rfl)).2
      (Effect.sendNewBlock peerP2.remote blkI)).mpr
     ⟨peerP2, by decide, by decide, rfl⟩⟩

/-- C7: for a `BeaconBlocks` reply from an operational peer, an unknown request
id is a protocol fault, a reply without exactly one block is a protocol fault,
a decoded block whose signing-root differs from the recorded one is a protocol
fault, and whenever the handler completes normally the request id is no longer
in the pending-request table. -/
theorem C7_beacon_blocks_reply_spec (s : ReceiveServer) (peer : Peer)
    (requestId : Nat) (blocks : List Block) (hop : peer.is_operational = true) :
    (mapGet s.map_request_id_block_root requestId = none →
      handleBeaconBlocks s peer requestId blocks = Except.error Fault.unknownRequestId)
    ∧ (∀ root, mapGet s.map_request_id_block_root requestId = some root →
        blocks.length ≠ 1 →
        handleBeaconBlocks s peer requestId blocks
          = Except.error Fault.wrongReplyCardinality)
    ∧ (∀ root b, mapGet s.map_request_id_block_root requestId = some root →
        blocks = [b] → b.signing_root ≠ root →
        handleBeaconBlocks s peer requestId blocks = Except.error Fault.blockRootMismatch)
    ∧ (∀ s2 effs, handleBeaconBlocks s peer requestId blocks = Except.ok (s2, effs) →
        mapGet s2.map_request_id_block_root requestId = none) := by
  refine ⟨?_, ?_, ?_, ?_⟩
  · intro hnone
    simp [handleBeaconBlocks, hop, hnone]
  · intro root hsome hlen
    cases blocks with
    | nil => simp [handleBeaconBlocks, hop, hsome]
    | cons b rest =>
      cases rest with
      | nil => exact absurd rfl hlen
      | cons c t => simp [handleBeaconBlocks, hop, hsome]
  · intro root b hsome hb hroot
    subst hb
    have h2 : (b.signing_root == root) = false := by simp [hroot]
    simp [handleBeaconBlocks, hop, hsome, h2]
  · intro s2 effs h
    cases hm : mapGet s.map_request_id_block_root requestId with
    | none => simp [handleBeaconBlocks, hop, hm] at h
    | some root =>
      cases blocks with
      | nil => simp [handleBeaconBlocks, hop, hm] at h
      | cons b rest =>
        cases rest with
        | cons c t => simp [handleBeaconBlocks, hop, hm] at h
        | nil =>
          cases hroot : (b.signing_root == root) with
          | false => simp [handleBeaconBlocks, hop, hm, hroot] at h
          | true =>
            cases hp : processReceivedBlock s b with
            | error e => simp [handleBeaconBlocks, hop, hm, hroot, hp] at h
            | ok r =>
              obtain ⟨f, s3, effs3⟩ := r
              simp [handleBeaconBlocks, hop, hm, hroot, hp] at h
              obtain ⟨h1, h2⟩ := h
              subst h1
              simp [mapGet_mapDel]

theorem C7_beacon_blocks_reply_spec_witness :
    mapGet s2J.map_request_id_block_root 5 = none :=
  (C7_beacon_blocks_reply_spec sJ peerP1 5 [blkJ] rfl).2.2.2 s2J [] (by rfl)

/-! Fuel sufficiency for the drainage loop: the fuel `tryImportOrphanBlocks`
passes is an upper bound on the number of loop iterations, so the bounded loop
computes the same result as the unbounded Python loop. -/

theorem filter_partition_length (l : List Block) (f : Block → Bool) :
    (l.filter f).length + (l.filter (fun b => !(f b))).length = l.length := by
  induction l with
  | nil => rfl
  | cons b bs ih =>
    cases hf : f b <;> simp [List.filter, hf] <;> omega

theorem importChildren_roots_length (children : List Block) (chain : BeaconChain)
    (attPool : List Attestation) (c2 : BeaconChain) (p2 : List Attestation)
    (roots : List Nat)
    (h : importChildren chain attPool children = Except.ok (c2, p2, roots)) :
    roots.length ≤ children.length := by
  obtain ⟨_, hr⟩ := importChildren_pool_and_roots children chain attPool c2 p2 roots h
  rw [hr, List.length_map]
  exact List.length_filter_le _ _

/-- One unfolding step of the drainage loop on a non-empty worklist. -/
theorem drainLoop_succ_cons (fuel : Nat) (chain : BeaconChain) (orphans : List Block)
    (attPool : List Attestation) (current : Nat) (rest : List Nat) :
    drainLoop (fuel + 1) chain orphans attPool (current :: rest) =
      (if isBlockRootInDb chain current then
        match importChildren chain attPool (OrphanBlockPool.popChildren orphans current).1 with
        | Except.error e => Except.error e
        | Except.ok (c2, p2, newRoots) =>
          drainLoop fuel c2 (OrphanBlockPool.popChildren orphans current).2 p2
            (newRoots.reverse ++ rest)
      else
        drainLoop fuel chain orphans attPool rest) := rfl

theorem drainLoop_fuel_stable :
    ∀ fuel chain orphans attPool stack,
      stack.length + 2 * orphans.length ≤ fuel →
      drainLoop (fuel + 1) chain orphans attPool stack
        = drainLoop fuel chain orphans attPool stack := by
  intro fuel
  induction fuel with
  | zero =>
    intro chain orphans attPool stack h
    cases stack with
    | nil => simp [drainLoop]
    | cons a t => simp [List.length_cons] at h
  | succ f ih =>
    intro chain orphans attPool stack h
    cases stack with
    | nil => simp [drainLoop]
    | cons current rest =>
      rw [drainLoop_succ_cons, drainLoop_succ_cons]
      cases hdb : isBlockRootInDb chain current with
      | false =>
        simp only [Bool.false_eq_true, if_false]
        apply ih
        simp only [List.length_cons] at h
        omega
      | true =>
        simp only [if_true]
        cases hic : importChildren chain attPool
            (OrphanBlockPool.popChildren orphans current).1 with
        | error e => rfl
        | ok r =>
          obtain ⟨c2, p2, newRoots⟩ := r
          apply ih
          have h1 := importChildren_roots_length _ _ _ _ _ _ hic
          have h2 := filter_partition_length orphans (fun b => b.parent_root == current)
          simp only [OrphanBlockPool.popChildren] at h1 h2 ⊢
          simp only [List.length_append, List.length_reverse, List.length_cons] at *
          omega

theorem drainLoop_fuel_irrelevant :
    ∀ extra fuel chain orphans attPool stack,
      stack.length + 2 * orphans.length ≤ fuel →
      drainLoop (fuel + extra) chain orphans attPool stack
        = drainLoop fuel chain orphans attPool stack := by
  intro extra
  induction extra with
  | zero => intro fuel chain orphans attPool stack h; rfl
  | succ e ih =>
    intro fuel chain orphans attPool stack h
    have harith : fuel + (e + 1) = (fuel + e) + 1 := by omega
    rw [harith]
    rw [drainLoop_fuel_stable (fuel + e) chain orphans attPool stack
      (le_trans h (by omega))]
    exact ih fuel chain orphans attPool stack h
